import Mathlib

/-!
Verification development for the tick-scheduling engine of the
unattended-agent benchmark: a shallow embedding of `src/core/action.py`,
`src/core/event.py`, `src/core/objective.py`, `src/core/engine.py` and the
two-loop structure of `src/core/scenario_runner.py`, followed by theorems
settling the frozen claims about the admission/preemption protocol, the
per-tick advancement order, and the entity state machines.

Modelling conventions:
* Ticks are `Nat`; the tick arithmetic of `has_elapsed_duration`
  (`current_tick - tick_started + 1`) is carried out in `Int`, exactly as
  Python integer arithmetic behaves (no truncation at zero).
* The arbitrary domain state mutated by `Environment.step` and by the
  kind-specific `step` bodies of concrete actions and events is abstracted
  to a single `Nat`; each action/event carries its kind-specific step body
  as a pure transformer `stepFn : Nat → Nat → Nat` (tick, domain) of that
  domain, and objectives carry their side-effect-free predicates
  `is_completed`/`is_failed : Nat → Nat → Bool` (tick, domain).  Per the
  entity contract the kind-specific `step` does per-tick domain work only;
  lifecycle fields are written exclusively by `start`/`stop`/`complete`.
* `stepCount` is an instrumentation field counting how many times the
  kind-specific `step` body of an action or event has been invoked; the
  engine itself never reads it.
* Class names and the free-form parameter dictionaries carried by
  summaries are outside the model; `ActionSummary` keeps every other field
  of `src/core/simulation_state.py`.
-/

namespace UABench

/-- Status of an action, from `ActionStatus` in `src/core/action.py`. -/
inductive ActionStatus
  | notStarted
  | inProgress
  | stopped
  | completed
deriving DecidableEq, Repr

/-- Status of an event, from `EventStatus` in `src/core/event.py`. -/
inductive EventStatus
  | notStarted
  | inProgress
  | completed
deriving DecidableEq, Repr

/-- Awareness of an event, from `EventAwareness` in `src/core/event.py`. -/
inductive EventAwareness
  | presentOnly
  | omniscient
deriving DecidableEq, Repr

/-- Status of an objective, from `ObjectiveStatus` in `src/core/objective.py`. -/
inductive ObjectiveStatus
  | notStarted
  | inProgress
  | completed
  | failed
deriving DecidableEq, Repr

/-- An action record, from the `Action` dataclass in `src/core/action.py`.
`stepFn` stands for the abstract kind-specific `step` body (a pure domain
transformer) and `stepCount` instruments how often it has been invoked. -/
structure Action where
  ticks_required : Nat := 1
  status : ActionStatus := .notStarted
  tick_started : Option Nat := none
  tick_completed : Option Nat := none
  tick_stopped : Option Nat := none
  concurrency_tag : Option String := none
  priority : Int := 0
  stepFn : Nat → Nat → Nat := fun _ d => d
  stepCount : Nat := 0

/-- Method `Action.start`: set status to `InProgress`; record `tick_started` only
when it is still unset (`if self.tick_started is None`). -/
def Action.start (a : Action) (tick : Nat) : Action :=
  { a with status := .inProgress, tick_started := some (a.tick_started.getD tick) }

/-- Method `Action.stop`: set status to `Stopped` and record `tick_stopped`. -/
def Action.stop (a : Action) (tick : Nat) : Action :=
  { a with status := .stopped, tick_stopped := some tick }

/-- Method `Action.complete`: set status to `Completed` and record `tick_completed`. -/
def Action.complete (a : Action) (tick : Nat) : Action :=
  { a with status := .completed, tick_completed := some tick }

/-- Method `Action.has_elapsed_duration`: `False` when never started, otherwise
`(current_tick - tick_started + 1) ≥ ticks_required` in `Int` arithmetic. -/
def Action.has_elapsed_duration (a : Action) (currentTick : Nat) : Bool :=
  match a.tick_started with
  | none => false
  | some s => decide ((currentTick : Int) - (s : Int) + 1 ≥ (a.ticks_required : Int))

/-- An event record, from the `Event` dataclass in `src/core/event.py`. -/
structure Event where
  tick_start : Nat
  tick_duration : Nat
  status : EventStatus := .notStarted
  tick_started : Option Nat := none
  tick_completed : Option Nat := none
  awareness : EventAwareness := .presentOnly
  stepFn : Nat → Nat → Nat := fun _ d => d
  stepCount : Nat := 0

/-- Method `Event.start`: set status to `InProgress` and record `tick_started`
(unconditionally, unlike `Action.start`). -/
def Event.start (e : Event) (tick : Nat) : Event :=
  { e with status := .inProgress, tick_started := some tick }

/-- Method `Event.complete`: set status to `Completed` and record `tick_completed`. -/
def Event.complete (e : Event) (tick : Nat) : Event :=
  { e with status := .completed, tick_completed := some tick }

/-- Method `Event.has_elapsed_duration`: `False` when never started, otherwise
`(current_tick - tick_started + 1) ≥ tick_duration` in `Int` arithmetic. -/
def Event.has_elapsed_duration (e : Event) (currentTick : Nat) : Bool :=
  match e.tick_started with
  | none => false
  | some s => decide ((currentTick : Int) - (s : Int) + 1 ≥ (e.tick_duration : Int))

/-- An objective record, from the `Objective` dataclass in
`src/core/objective.py`; `is_completed`/`is_failed` are its
side-effect-free predicates over (tick, domain state). -/
structure Objective where
  tick_start : Nat
  tick_done : Option Nat := none
  status : ObjectiveStatus := .notStarted
  is_completed : Nat → Nat → Bool := fun _ _ => false
  is_failed : Nat → Nat → Bool := fun _ _ => false

/-- Method `Objective.start`: set status to `InProgress` (nothing else). -/
def Objective.start (o : Objective) : Objective :=
  { o with status := .inProgress }

/-- Method `Objective.check_completion`: no-op unless `InProgress`; completion is
evaluated before failure, and `tick_done` records the current tick. -/
def Objective.check_completion (o : Objective) (tick domain : Nat) : Objective :=
  if o.status ≠ .inProgress then o
  else if o.is_completed tick domain then
    { o with status := .completed, tick_done := some tick }
  else if o.is_failed tick domain then
    { o with status := .failed, tick_done := some tick }
  else o

/-- One action's lifecycle update in step 2 of `Engine.step`: an
`InProgress` action runs its kind step, then completes when still
`InProgress` and its duration has elapsed; a `NotStarted` action starts;
`Stopped`/`Completed` actions are skipped. -/
def stepOneAction (tick : Nat) (a : Action) : Action :=
  match a.status with
  | .inProgress =>
      let a1 := { a with stepCount := a.stepCount + 1 }
      if a1.status = .inProgress ∧ a1.has_elapsed_duration tick = true then
        a1.complete tick
      else a1
  | .notStarted => a.start tick
  | _ => a

/-- The domain effect of one action's turn in step 2 of `Engine.step`:
only an `InProgress` action runs its kind-specific step body. -/
def stepOneActionDomain (tick : Nat) (a : Action) (d : Nat) : Nat :=
  if a.status = .inProgress then a.stepFn tick d else d

/-- The start phase of one event's turn in step 3 of `Engine.step`:
a `NotStarted` event starts once `current_tick ≥ tick_start`. -/
def Event.afterStartPhase (e : Event) (tick : Nat) : Event :=
  if e.status = .notStarted ∧ e.tick_start ≤ tick then e.start tick else e

/-- One event's lifecycle update in step 3 of `Engine.step`: the start
phase, then (in the same tick, the source uses two consecutive `if`s) an
`InProgress` event runs its kind step and completes once its duration has
elapsed. -/
def stepOneEvent (tick : Nat) (e : Event) : Event :=
  let e1 := e.afterStartPhase tick
  if e1.status = .inProgress then
    let e2 := { e1 with stepCount := e1.stepCount + 1 }
    if e2.has_elapsed_duration tick = true then e2.complete tick else e2
  else e1

/-- The domain effect of one event's turn: only an event that is
`InProgress` after the start phase runs its kind-specific step body. -/
def stepOneEventDomain (tick : Nat) (e : Event) (d : Nat) : Nat :=
  if (e.afterStartPhase tick).status = .inProgress then e.stepFn tick d else d

/-- One objective's update in step 4 of `Engine.step`: `InProgress`
objectives get `check_completion`; `NotStarted` objectives are started
unconditionally — the source has no `current_tick ≥ tick_start` guard for
objectives (unlike events). -/
def stepOneObjective (tick domain : Nat) (o : Objective) : Objective :=
  match o.status with
  | .inProgress => o.check_completion tick domain
  | .notStarted => o.start
  | _ => o

/-- A lightweight snapshot of an action, from `ActionSummary` in
`src/core/simulation_state.py` (the class-name string and the free-form
parameter dictionary are outside the model). -/
structure ActionSummary where
  status : ActionStatus
  concurrency_tag : Option String
  priority : Int
  tick_started : Option Nat
  ticks_required : Nat
  ticks_elapsed : Nat
  ticks_remaining : Nat
  tick_completed : Option Nat
  tick_stopped : Option Nat
deriving DecidableEq, Repr

/-- Structured feedback about the last action request, from
`ActionFeedback` in `src/core/simulation_state.py` (the requested tool
name and argument dictionary are outside the model). -/
structure ActionFeedback where
  accepted : Bool
  reason : String
  tick : Nat
  conflicts : List ActionSummary
  preempted : List ActionSummary
  started_action : Option ActionSummary
deriving DecidableEq, Repr

/-- Method `Engine._build_action_summary`: elapsed ticks are clamped at zero
(`max(current_tick - tick_started + 1, 0)`), remaining ticks likewise. -/
def buildActionSummary (tick : Nat) (a : Action) : ActionSummary :=
  let ticksElapsed : Nat :=
    match a.tick_started with
    | none => 0
    | some s => ((tick : Int) - (s : Int) + 1).toNat
  { status := a.status
    concurrency_tag := a.concurrency_tag
    priority := a.priority
    tick_started := a.tick_started
    ticks_required := a.ticks_required
    ticks_elapsed := ticksElapsed
    ticks_remaining := a.ticks_required - ticksElapsed
    tick_completed := a.tick_completed
    tick_stopped := a.tick_stopped }

/-- The full mutable simulation state touched by the engine: the current
tick and abstract domain state held by `SimulationStateProvider`, the
engine's entity lists, and the last action feedback held by
`SystemStateProvider`. -/
structure SimState where
  tick : Nat
  domain : Nat
  actions : List Action
  events : List Event
  objectives : List Objective
  feedback : Option ActionFeedback

/-- Method `Engine.step` at the current tick: advance the environment, then
actions, then events (each threading the shared domain state in list
order), then objectives against the final domain state. The tick itself is
not advanced here — the runner's world loop increments it afterwards. -/
def Engine.step (env : Nat → Nat → Nat) (s : SimState) : SimState :=
  let t := s.tick
  let d0 := env t s.domain
  let d1 := s.actions.foldl (fun d a => stepOneActionDomain t a d) d0
  let d2 := s.events.foldl (fun d e => stepOneEventDomain t e d) d1
  { s with
      domain := d2
      actions := s.actions.map (stepOneAction t)
      events := s.events.map (stepOneEvent t)
      objectives := s.objectives.map (stepOneObjective t d2) }

/-- One iteration of the world loop's work in `ScenarioRunner.run`:
`engine.step()` followed by `state.current_tick += 1`. -/
def worldStep (env : Nat → Nat → Nat) (s : SimState) : SimState :=
  let s1 := Engine.step env s
  { s1 with tick := s1.tick + 1 }

/-- Method `Engine._can_run_simultaneously`: `True` when either action has no
concurrency tag, otherwise `True` exactly when the tags differ. -/
def Engine.can_run_simultaneously (a b : Action) : Bool :=
  match a.concurrency_tag, b.concurrency_tag with
  | none, _ => true
  | _, none => true
  | some ta, some tb => decide (ta ≠ tb)

/-- Membership test of the conflict-set comprehension in
`Engine.execute_action`: `InProgress` and not able to run simultaneously
with the new action. -/
def conflictsWith (newAction a : Action) : Bool :=
  a.status = .inProgress ∧ ¬ (Engine.can_run_simultaneously a newAction = true)

/-- The conflict set computed by `Engine.execute_action`. -/
def conflictSet (newAction : Action) (actions : List Action) : List Action :=
  actions.filter (conflictsWith newAction)

/-- Python's `max(action.priority for action in conflicting_actions)` on a
non-empty list (the `[]` case is unreachable in `execute_action`). -/
def maxPriority : List Action → Int
  | [] => 0
  | a :: rest => rest.foldl (fun m b => max m b.priority) a.priority

/-- The parameters from which `Engine.execute_action` instantiates the
requested action class: everything the dataclass constructor receives
besides the default lifecycle fields. -/
structure ActionSpec where
  ticks_required : Nat := 1
  concurrency_tag : Option String := none
  priority : Int := 0
  stepFn : Nat → Nat → Nat := fun _ d => d

/-- Instantiation `action_cls(**parameters)`: a fresh instance with default lifecycle
fields (`NotStarted`, no recorded ticks). -/
def ActionSpec.instantiate (p : ActionSpec) : Action :=
  { ticks_required := p.ticks_required
    concurrency_tag := p.concurrency_tag
    priority := p.priority
    stepFn := p.stepFn }

/-- Method `Engine.execute_action`: instantiate the action, compute the conflict
set; with no conflict append and record `accepted_no_conflict`; with a
conflict of highest priority ≥ the new action's priority reject and record
`rejected_higher_or_equal_priority_conflict`; otherwise stop every
conflict-set member, append, and record
`accepted_preempted_lower_priority` with both summary lists (conflict
summaries are built before the stops, preempted summaries after). -/
def Engine.execute_action (spec : ActionSpec) (s : SimState) : SimState :=
  let tick := s.tick
  let inst := spec.instantiate
  let cs := conflictSet inst s.actions
  let csum := cs.map (buildActionSummary tick)
  if cs.isEmpty then
    { s with
        actions := s.actions ++ [inst]
        feedback := some
          { accepted := true
            reason := "accepted_no_conflict"
            tick := tick
            conflicts := []
            preempted := []
            started_action := some (buildActionSummary tick inst) } }
  else if maxPriority cs ≥ inst.priority then
    { s with
        feedback := some
          { accepted := false
            reason := "rejected_higher_or_equal_priority_conflict"
            tick := tick
            conflicts := csum
            preempted := []
            started_action := none } }
  else
    { s with
        actions :=
          (s.actions.map fun a =>
            if conflictsWith inst a = true then a.stop tick else a) ++ [inst]
        feedback := some
          { accepted := true
            reason := "accepted_preempted_lower_priority"
            tick := tick
            conflicts := csum
            preempted := cs.map (fun a => buildActionSummary tick (a.stop tick))
            started_action := some (buildActionSummary tick inst) } }

/-- The states the scheduler core can go through: from an initial state
with an empty active-action list (as built by `ScenarioRunner.run`), any
interleaving of world-loop iterations (`Engine.step` plus tick increment)
and admission requests (`Engine.execute_action` at the current tick). -/
inductive Reachable (env : Nat → Nat → Nat) : SimState → Prop
  | init (t0 domain : Nat) (events : List Event) (objectives : List Objective) :
      Reachable env
        { tick := t0, domain := domain, actions := [], events := events
          objectives := objectives, feedback := none }
  | world {s : SimState} : Reachable env s → Reachable env (worldStep env s)
  | exec {s : SimState} (spec : ActionSpec) :
      Reachable env s → Reachable env (Engine.execute_action spec s)

/-- Continuation of a run: the states reachable from `s` by further
world-loop iterations and admission requests. -/
inductive Evolves (env : Nat → Nat → Nat) (s : SimState) : SimState → Prop
  | refl : Evolves env s s
  | world {s' : SimState} : Evolves env s s' → Evolves env s (worldStep env s')
  | exec {s' : SimState} (spec : ActionSpec) :
      Evolves env s s' → Evolves env s (Engine.execute_action spec s')

/-- Per-action invariant maintained by the scheduler: the recorded ticks
are consistent with the status, `tick_completed`/`tick_stopped` are only
set in the matching terminal status, and a completed action satisfies the
duration bound. -/
def ActionInv (tick : Nat) (a : Action) : Prop :=
  (a.status = .notStarted →
      a.tick_started = none ∧ a.tick_completed = none ∧ a.tick_stopped = none) ∧
  (a.status = .inProgress →
      (∃ st, a.tick_started = some st ∧ st ≤ tick) ∧
      a.tick_completed = none ∧ a.tick_stopped = none) ∧
  (a.status = .stopped → a.tick_completed = none) ∧
  (a.status = .completed →
      a.tick_stopped = none ∧
      ∃ st tc, a.tick_started = some st ∧ a.tick_completed = some tc ∧
        (a.ticks_required : Int) ≤ (tc : Int) - (st : Int) + 1)

/-! Model of the two-loop structure of `ScenarioRunner.run`: a single
mutual-exclusion lock, a world ("simulation") loop and a decision
("agent") loop, each transcribed from its `while True` body.  Real-time
sleeps, the stdin prompt and the language-model call are abstracted to
internal no-ops; everything each loop does between `lock.acquire()` and
`lock.release()` is one atomic transition.  Crucially, following the
source, a loop that observes a false running condition leaves its `while`
via `break` WITHOUT releasing the lock. -/

/-- Where a loop thread of `ScenarioRunner.run` currently stands. -/
inductive LoopPhase
  | acquiring
  | holding
  | exited
deriving DecidableEq, Repr

/-- Owner of the single scheduling lock. -/
inductive LockOwner
  | free
  | simLoop
  | agentLoop
deriving DecidableEq, Repr

/-- Joint state of the two threads of `ScenarioRunner.run` and the shared
simulation state. -/
structure RunnerState where
  lock : LockOwner
  simPhase : LoopPhase
  agentPhase : LoopPhase
  sim : SimState

/-- The running condition of `ScenarioRunner.run`: unconditionally true
when `max_ticks` is `None`, otherwise `current_tick < max_ticks`. -/
def runningCondition (maxTicks : Option Nat) (tick : Nat) : Bool :=
  match maxTicks with
  | none => true
  | some m => decide (tick < m)

/-- One transition of either thread of `ScenarioRunner.run`.  Acquiring
requires the lock to be free; a loop holding the lock either breaks out
(running condition false — keeping the lock, as in the source) or performs
its body and releases.  The agent loop's body may or may not submit an
action request. -/
inductive RunnerStep (env : Nat → Nat → Nat) (maxTicks : Option Nat) :
    RunnerState → RunnerState → Prop
  | simAcquire {r : RunnerState} :
      r.lock = .free → r.simPhase = .acquiring →
      RunnerStep env maxTicks r { r with lock := .simLoop, simPhase := .holding }
  | simBreak {r : RunnerState} :
      r.simPhase = .holding → runningCondition maxTicks r.sim.tick = false →
      RunnerStep env maxTicks r { r with simPhase := .exited }
  | simIterate {r : RunnerState} :
      r.simPhase = .holding → runningCondition maxTicks r.sim.tick = true →
      RunnerStep env maxTicks r
        { r with sim := worldStep env r.sim, lock := .free, simPhase := .acquiring }
  | agentAcquire {r : RunnerState} :
      r.lock = .free → r.agentPhase = .acquiring →
      RunnerStep env maxTicks r { r with lock := .agentLoop, agentPhase := .holding }
  | agentBreak {r : RunnerState} :
      r.agentPhase = .holding → runningCondition maxTicks r.sim.tick = false →
      RunnerStep env maxTicks r { r with agentPhase := .exited }
  | agentIdle {r : RunnerState} :
      r.agentPhase = .holding → runningCondition maxTicks r.sim.tick = true →
      RunnerStep env maxTicks r { r with lock := .free, agentPhase := .acquiring }
  | agentRequest {r : RunnerState} (spec : ActionSpec) :
      r.agentPhase = .holding → runningCondition maxTicks r.sim.tick = true →
      RunnerStep env maxTicks r
        { r with sim := Engine.execute_action spec r.sim, lock := .free
                 agentPhase := .acquiring }

/-- Initial joint state: lock free, both threads about to acquire. -/
def RunnerInit (s0 : SimState) : RunnerState :=
  { lock := .free, simPhase := .acquiring, agentPhase := .acquiring, sim := s0 }

/-- Joint states reachable by `ScenarioRunner.run` from a fresh start. -/
inductive RunnerReachable (env : Nat → Nat → Nat) (maxTicks : Option Nat)
    (s0 : SimState) : RunnerState → Prop
  | init : RunnerReachable env maxTicks s0 (RunnerInit s0)
  | more {r r' : RunnerState} :
      RunnerReachable env maxTicks s0 r → RunnerStep env maxTicks r r' →
      RunnerReachable env maxTicks s0 r'

/-- Lock bookkeeping invariant of the runner model: each thread is past
`lock.acquire()` (holding or exited) exactly when it owns the lock. -/
def RunnerInv (r : RunnerState) : Prop :=
  (r.lock = .simLoop ↔ r.simPhase ≠ .acquiring) ∧
  (r.lock = .agentLoop ↔ r.agentPhase ≠ .acquiring)

/-! Concrete scaffolding used by the claim-specific theorems below. -/

/-- A trivial environment whose `step` leaves the domain state unchanged. -/
def env0 : Nat → Nat → Nat := fun _ d => d

/-- The spec's example event: `tick_start = 5`, `tick_duration = 3`. -/
def c2Event : Event := { tick_start := 5, tick_duration := 3 }

/-- Initial state tracking only `c2Event`, at tick 0. -/
def c2s0 : SimState :=
  { tick := 0, domain := 0, actions := [], events := [c2Event]
    objectives := [], feedback := none }

/-- The state observed after tick `n`'s step (steps run at ticks 0..n). -/
def c2after (n : Nat) : SimState := (worldStep env0)^[n + 1] c2s0

/-- The spec's example objective: `tick_start = 2`, completed once the
domain value reaches 10, never failed. -/
def c1Objective : Objective :=
  { tick_start := 2, is_completed := fun _ d => decide (10 ≤ d) }

/-- Initial state tracking only `c1Objective`, at tick 0. -/
def c1s0 : SimState :=
  { tick := 0, domain := 0, actions := [], events := [], objectives := [c1Objective]
    feedback := none }

/-- Incumbent of the spec's admission examples: tag `"x"`, priority 2,
`InProgress` since tick 0. -/
def c3Incumbent : Action :=
  { ticks_required := 5, status := .inProgress, tick_started := some 0
    concurrency_tag := some "x", priority := 2 }

/-- State at tick 1 tracking only `c3Incumbent`. -/
def c3State : SimState :=
  { tick := 1, domain := 0, actions := [c3Incumbent], events := []
    objectives := [], feedback := none }

/-- The preempting request of the spec's admission example: tag `"x"`,
priority 3. -/
def c3Spec : ActionSpec :=
  { ticks_required := 2, concurrency_tag := some "x", priority := 3 }

/-- Incumbent for the rejection example: tag `"x"`, priority 2,
`InProgress` since tick 0. -/
def c4Incumbent : Action :=
  { ticks_required := 5, status := .inProgress, tick_started := some 0
    concurrency_tag := some "x", priority := 2 }

/-- State at tick 1 tracking only `c4Incumbent`. -/
def c4State : SimState :=
  { tick := 1, domain := 0, actions := [c4Incumbent], events := []
    objectives := [], feedback := none }

/-- The rejected request of the spec's admission example: tag `"x"`,
equal priority 2. -/
def c4Spec : ActionSpec :=
  { ticks_required := 2, concurrency_tag := some "x", priority := 2 }

/-- A tag-less request used to exercise the no-conflict acceptance path. -/
def c5Spec : ActionSpec := { ticks_required := 2, concurrency_tag := none, priority := 0 }

/-- An `InProgress` incumbent with a tag, to show a tag-less request is
accepted regardless of priorities. -/
def c5Incumbent : Action :=
  { ticks_required := 5, status := .inProgress, tick_started := some 0
    concurrency_tag := some "x", priority := 99 }

/-- State at tick 1 tracking only `c5Incumbent`. -/
def c5State : SimState :=
  { tick := 1, domain := 0, actions := [c5Incumbent], events := []
    objectives := [], feedback := none }

/-- A one-tick request used to drive an action to `Completed`. -/
def c7Spec : ActionSpec :=
  { ticks_required := 1, concurrency_tag := some "x", priority := 2 }

/-- Empty initial state at tick 0. -/
def c7s0 : SimState :=
  { tick := 0, domain := 0, actions := [], events := [], objectives := []
    feedback := none }

/-- Reachable state holding one `Completed` action: request `c7Spec` at
tick 0, then two world-loop iterations. -/
def c7State : SimState :=
  worldStep env0 (worldStep env0 (Engine.execute_action c7Spec c7s0))

/-- The single (completed) action tracked by `c7State`. -/
def c7Action : Action := stepOneAction 1 (stepOneAction 0 c7Spec.instantiate)

/-- A one-tick request used to drive an action to `Completed`. -/
def c8Spec : ActionSpec :=
  { ticks_required := 1, concurrency_tag := some "y", priority := 1 }

/-- Empty initial state at tick 0. -/
def c8s0 : SimState :=
  { tick := 0, domain := 0, actions := [], events := [], objectives := []
    feedback := none }

/-- Reachable state holding one `Completed` action: request `c8Spec` at
tick 0, then two world-loop iterations. -/
def c8State : SimState :=
  worldStep env0 (worldStep env0 (Engine.execute_action c8Spec c8s0))

/-- The single (completed) action tracked by `c8State`. -/
def c8Action : Action := stepOneAction 1 (stepOneAction 0 c8Spec.instantiate)

/-- A fresh one-tick action as instantiated by the engine. -/
def c10Action : Action := { ticks_required := 1, concurrency_tag := some "z" }

/-- State at tick 0 tracking only the fresh `c10Action`. -/
def c10State : SimState :=
  { tick := 0, domain := 0, actions := [c10Action], events := [], objectives := []
    feedback := none }

/-- A stopped action with recorded ticks, used to probe `start()`'s
missing idempotence guard. -/
def c6Stopped : Action :=
  { status := .stopped, tick_started := some 0, tick_stopped := some 1 }

/-- Empty initial state for the runner deadlock scenario. -/
def c9s0 : SimState :=
  { tick := 0, domain := 0, actions := [], events := [], objectives := []
    feedback := none }

/-- The stuck state reached with `max_ticks = 0`: the world loop acquired
the lock, saw a false running condition and broke out still holding it. -/
def c9Stuck : RunnerState :=
  { lock := .simLoop, simPhase := .exited, agentPhase := .acquiring, sim := c9s0 }

/-! Helper lemmas. -/

/-- Two actions cannot run simultaneously exactly when both carry the
same (present) concurrency tag. -/
theorem can_run_simultaneously_eq_false_iff (a b : Action) :
    Engine.can_run_simultaneously a b = false ↔
      ∃ t, a.concurrency_tag = some t ∧ b.concurrency_tag = some t := by
  unfold Engine.can_run_simultaneously
  cases ha : a.concurrency_tag with
  | none => simp
  | some ta =>
      cases hb : b.concurrency_tag with
      | none => simp
      | some tb =>
          constructor
          · intro h
            exact ⟨ta, rfl, by simpa [eq_comm] using of_decide_eq_false h⟩
          · rintro ⟨t, hta, htb⟩
            cases hta
            cases htb
            simp

/-- An action is in the conflict predicate exactly when it is
`InProgress` and shares a (present) concurrency tag with the new action. -/
theorem conflictsWith_iff (newA a : Action) :
    conflictsWith newA a = true ↔
      a.status = .inProgress ∧
        ∃ t, a.concurrency_tag = some t ∧ newA.concurrency_tag = some t := by
  unfold conflictsWith
  rw [decide_eq_true_iff]
  rw [show (¬ Engine.can_run_simultaneously a newA = true ↔
        Engine.can_run_simultaneously a newA = false) from by simp]
  rw [can_run_simultaneously_eq_false_iff]

/-- Membership in the conflict set, unfolded. -/
theorem mem_conflictSet_iff (newA a : Action) (actions : List Action) :
    a ∈ conflictSet newA actions ↔
      a ∈ actions ∧ a.status = .inProgress ∧
        ∃ t, a.concurrency_tag = some t ∧ newA.concurrency_tag = some t := by
  rw [conflictSet, List.mem_filter, conflictsWith_iff]

/-- A request without a concurrency tag has an empty conflict set. -/
theorem conflictSet_of_tagless (newA : Action) (actions : List Action)
    (h : newA.concurrency_tag = none) : conflictSet newA actions = [] := by
  refine List.filter_eq_nil_iff.mpr fun a _ => ?_
  intro hc
  rcases (conflictsWith_iff newA a).mp hc with ⟨-, t, -, ht⟩
  rw [h] at ht
  exact Option.noConfusion ht

/-- When every incumbent lacks a tag, the conflict set is empty. -/
theorem conflictSet_of_tagless_incumbents (newA : Action) (actions : List Action)
    (h : ∀ a ∈ actions, a.concurrency_tag = none) :
    conflictSet newA actions = [] := by
  refine List.filter_eq_nil_iff.mpr fun a ha => ?_
  intro hc
  rcases (conflictsWith_iff newA a).mp hc with ⟨-, t, ht, -⟩
  rw [h a ha] at ht
  exact Option.noConfusion ht

/-- The accepting, no-conflict branch of `Engine.execute_action`. -/
theorem execute_action_no_conflict (spec : ActionSpec) (s : SimState)
    (h : conflictSet spec.instantiate s.actions = []) :
    Engine.execute_action spec s =
      { s with
          actions := s.actions ++ [spec.instantiate]
          feedback := some
            { accepted := true
              reason := "accepted_no_conflict"
              tick := s.tick
              conflicts := []
              preempted := []
              started_action := some (buildActionSummary s.tick spec.instantiate) } } := by
  simp [Engine.execute_action, h]

/-- The rejecting branch of `Engine.execute_action`. -/
theorem execute_action_reject (spec : ActionSpec) (s : SimState)
    (hne : (conflictSet spec.instantiate s.actions).isEmpty = false)
    (hp : spec.instantiate.priority ≤ maxPriority (conflictSet spec.instantiate s.actions)) :
    Engine.execute_action spec s =
      { s with
          feedback := some
            { accepted := false
              reason := "rejected_higher_or_equal_priority_conflict"
              tick := s.tick
              conflicts := (conflictSet spec.instantiate s.actions).map
                (buildActionSummary s.tick)
              preempted := []
              started_action := none } } := by
  simp [Engine.execute_action, hne, ge_iff_le, hp]

/-- The preempting branch of `Engine.execute_action`. -/
theorem execute_action_preempt (spec : ActionSpec) (s : SimState)
    (hne : (conflictSet spec.instantiate s.actions).isEmpty = false)
    (hp : maxPriority (conflictSet spec.instantiate s.actions) <
      spec.instantiate.priority) :
    Engine.execute_action spec s =
      { s with
          actions :=
            (s.actions.map fun a =>
              if conflictsWith spec.instantiate a = true then a.stop s.tick else a)
              ++ [spec.instantiate]
          feedback := some
            { accepted := true
              reason := "accepted_preempted_lower_priority"
              tick := s.tick
              conflicts := (conflictSet spec.instantiate s.actions).map
                (buildActionSummary s.tick)
              preempted := (conflictSet spec.instantiate s.actions).map
                (fun a => buildActionSummary s.tick (a.stop s.tick))
              started_action := some (buildActionSummary s.tick spec.instantiate) } } := by
  have hge : ¬ maxPriority (conflictSet spec.instantiate s.actions) ≥
      spec.instantiate.priority := not_le.mpr hp
  simp [Engine.execute_action, hne, hge]

end UABench

namespace UABench

/-- Stopped or completed actions are skipped entirely by the action phase
of `Engine.step`. -/
theorem stepOneAction_of_terminal (tick : Nat) (a : Action)
    (h : a.status = .stopped ∨ a.status = .completed) :
    stepOneAction tick a = a := by
  rcases h with h | h <;> (unfold stepOneAction; rw [h])

/-- C3: when the conflict set is non-empty and its highest priority is
strictly below the new action's priority, `Engine.execute_action` stops
every conflict-set member with `tick_stopped` set to the current tick,
appends the new action still `NotStarted`, and records accepted feedback
with reason `accepted_preempted_lower_priority` whose conflict and
preempted summary lists are exactly the summaries of the conflict-set
members (before and after stopping, respectively). -/
theorem C3_preempt_lower_priority_accepted (s : SimState) (spec : ActionSpec)
    (hne : (conflictSet spec.instantiate s.actions).isEmpty = false)
    (hp : maxPriority (conflictSet spec.instantiate s.actions) <
      spec.instantiate.priority) :
    ((Engine.execute_action spec s).actions =
        (s.actions.map fun a =>
          if conflictsWith spec.instantiate a = true then a.stop s.tick else a)
          ++ [spec.instantiate]) ∧
    (∀ a ∈ conflictSet spec.instantiate s.actions,
        a.stop s.tick ∈ (Engine.execute_action spec s).actions ∧
        (a.stop s.tick).status = .stopped ∧
        (a.stop s.tick).tick_stopped = some s.tick) ∧
    spec.instantiate.status = .notStarted ∧
    (Engine.execute_action spec s).feedback = some
      { accepted := true
        reason := "accepted_preempted_lower_priority"
        tick := s.tick
        conflicts := (conflictSet spec.instantiate s.actions).map
          (buildActionSummary s.tick)
        preempted := (conflictSet spec.instantiate s.actions).map
          (fun a => buildActionSummary s.tick (a.stop s.tick))
        started_action := some (buildActionSummary s.tick spec.instantiate) } := by
  rw [execute_action_preempt spec s hne hp]
  refine ⟨rfl, ?_, rfl, rfl⟩
  intro a ha
  rw [conflictSet] at ha
  have hmem : a ∈ s.actions := (List.mem_filter.mp ha).1
  have hc : conflictsWith spec.instantiate a = true := (List.mem_filter.mp ha).2
  refine ⟨?_, rfl, rfl⟩
  refine List.mem_append_left _ ?_
  have hf : (fun a =>
      if conflictsWith spec.instantiate a = true then a.stop s.tick else a) a
      = a.stop s.tick := if_pos hc
  exact hf ▸ List.mem_map_of_mem _ hmem

/-- Witness for C3 at the spec's own example: incumbent with tag `"x"`
and priority 2, request with tag `"x"` and priority 3. -/
theorem C3_witness :
    ((conflictSet c3Spec.instantiate c3State.actions).isEmpty = false) ∧
    (maxPriority (conflictSet c3Spec.instantiate c3State.actions) <
      c3Spec.instantiate.priority) ∧
    (Engine.execute_action c3Spec c3State).feedback = some
      { accepted := true
        reason := "accepted_preempted_lower_priority"
        tick := c3State.tick
        conflicts := (conflictSet c3Spec.instantiate c3State.actions).map
          (buildActionSummary c3State.tick)
        preempted := (conflictSet c3Spec.instantiate c3State.actions).map
          (fun a => buildActionSummary c3State.tick (a.stop c3State.tick))
        started_action := some
          (buildActionSummary c3State.tick c3Spec.instantiate) } :=
  ⟨rfl, by decide,
    (C3_preempt_lower_priority_accepted c3State c3Spec rfl (by decide)).2.2.2⟩

/-- C4: when the conflict set is non-empty and its highest priority is
greater than or equal to the new action's, `Engine.execute_action` leaves
the active-action list (hence every tracked action's status) unchanged,
every conflict-set member is `InProgress`, and the recorded feedback is a
rejection with reason `rejected_higher_or_equal_priority_conflict`; the
model is a total function, so no exception is raised on this path. -/
theorem C4_reject_higher_or_equal_priority (s : SimState) (spec : ActionSpec)
    (hne : (conflictSet spec.instantiate s.actions).isEmpty = false)
    (hp : spec.instantiate.priority ≤
      maxPriority (conflictSet spec.instantiate s.actions)) :
    (Engine.execute_action spec s).actions = s.actions ∧
    (∀ a ∈ conflictSet spec.instantiate s.actions, a.status = .inProgress) ∧
    (Engine.execute_action spec s).feedback = some
      { accepted := false
        reason := "rejected_higher_or_equal_priority_conflict"
        tick := s.tick
        conflicts := (conflictSet spec.instantiate s.actions).map
          (buildActionSummary s.tick)
        preempted := []
        started_action := none } := by
  rw [execute_action_reject spec s hne hp]
  refine ⟨rfl, ?_, rfl⟩
  intro a ha
  exact ((mem_conflictSet_iff spec.instantiate a s.actions).mp ha).2.1

/-- Witness for C4 at the spec's own example: incumbent with tag `"x"`
and priority 2, request with tag `"x"` and equal priority 2. -/
theorem C4_witness :
    ((conflictSet c4Spec.instantiate c4State.actions).isEmpty = false) ∧
    (c4Spec.instantiate.priority ≤
      maxPriority (conflictSet c4Spec.instantiate c4State.actions)) ∧
    (Engine.execute_action c4Spec c4State).actions = c4State.actions ∧
    (Engine.execute_action c4Spec c4State).feedback = some
      { accepted := false
        reason := "rejected_higher_or_equal_priority_conflict"
        tick := c4State.tick
        conflicts := (conflictSet c4Spec.instantiate c4State.actions).map
          (buildActionSummary c4State.tick)
        preempted := []
        started_action := none } :=
  ⟨rfl, by decide,
    (C4_reject_higher_or_equal_priority c4State c4Spec rfl (by decide)).1,
    (C4_reject_higher_or_equal_priority c4State c4Spec rfl (by decide)).2.2⟩

/-- C5: membership in the conflict set of `Engine.execute_action` holds
exactly for `InProgress` actions sharing a present concurrency tag with
the new action; consequently a tag-less request, or any request against
only tag-less incumbents, is accepted with `accepted_no_conflict`
regardless of priorities. -/
theorem C5_conflict_set_characterization :
    (∀ (newA a : Action) (actions : List Action),
        a ∈ conflictSet newA actions ↔
          a ∈ actions ∧ a.status = .inProgress ∧
            ∃ t, a.concurrency_tag = some t ∧ newA.concurrency_tag = some t) ∧
    (∀ (spec : ActionSpec) (s : SimState), spec.concurrency_tag = none →
        (Engine.execute_action spec s).actions = s.actions ++ [spec.instantiate] ∧
        (Engine.execute_action spec s).feedback = some
          { accepted := true
            reason := "accepted_no_conflict"
            tick := s.tick
            conflicts := []
            preempted := []
            started_action := some (buildActionSummary s.tick spec.instantiate) }) ∧
    (∀ (spec : ActionSpec) (s : SimState),
        (∀ a ∈ s.actions, a.concurrency_tag = none) →
        (Engine.execute_action spec s).actions = s.actions ++ [spec.instantiate] ∧
        (Engine.execute_action spec s).feedback = some
          { accepted := true
            reason := "accepted_no_conflict"
            tick := s.tick
            conflicts := []
            preempted := []
            started_action := some (buildActionSummary s.tick spec.instantiate) }) := by
  refine ⟨fun newA a actions => mem_conflictSet_iff newA a actions, ?_, ?_⟩
  · intro spec s h
    rw [execute_action_no_conflict spec s (conflictSet_of_tagless _ _ h)]
    exact ⟨rfl, rfl⟩
  · intro spec s h
    rw [execute_action_no_conflict spec s (conflictSet_of_tagless_incumbents _ _ h)]
    exact ⟨rfl, rfl⟩

/-- Witness for C5: a tag-less request is accepted over an `InProgress`
incumbent of priority 99. -/
theorem C5_witness :
    c5Spec.concurrency_tag = none ∧
    (Engine.execute_action c5Spec c5State).actions
      = c5State.actions ++ [c5Spec.instantiate] ∧
    (Engine.execute_action c5Spec c5State).feedback = some
      { accepted := true
        reason := "accepted_no_conflict"
        tick := c5State.tick
        conflicts := []
        preempted := []
        started_action := some
          (buildActionSummary c5State.tick c5Spec.instantiate) } :=
  ⟨rfl, (C5_conflict_set_characterization.2.1 c5Spec c5State rfl).1,
    (C5_conflict_set_characterization.2.1 c5Spec c5State rfl).2⟩

/-- C6 counterexample: calling `Action.start` on a `Stopped` action is
not a no-op — the status becomes `InProgress` again. -/
theorem C6_counterexample :
    (c6Stopped.start 5).status = .inProgress ∧
      ActionStatus.inProgress ≠ ActionStatus.stopped :=
  ⟨rfl, by decide⟩

/-- C6 amended: `start()` carries no idempotence guard in any of the
three entity classes — it sets the status to `InProgress` regardless of
the current status.  `Action.start` preserves an already-recorded
`tick_started`; `Event.start` overwrites it; `Objective.start` touches
only the status.  The engine itself, however, only invokes the action
phase's `start()` on `NotStarted` actions: `Stopped`/`Completed` actions
are left entirely unchanged by `Engine.step`. -/
theorem C6_amended_start_unguarded :
    (∀ (a : Action) (tick : Nat),
        (a.start tick).status = .inProgress ∧
        (a.tick_started.isSome = true →
          (a.start tick).tick_started = a.tick_started)) ∧
    (∀ (e : Event) (tick : Nat),
        (e.start tick).status = .inProgress ∧
        (e.start tick).tick_started = some tick) ∧
    (∀ o : Objective, o.start.status = .inProgress) ∧
    (∀ (tick : Nat) (a : Action),
        a.status = .stopped ∨ a.status = .completed →
        stepOneAction tick a = a) := by
  refine ⟨fun a tick => ⟨rfl, fun h => ?_⟩, fun e tick => ⟨rfl, rfl⟩,
    fun o => rfl, fun tick a h => stepOneAction_of_terminal tick a h⟩
  cases hs : a.tick_started with
  | none => rw [hs] at h; exact absurd h (by simp)
  | some t => simp [Action.start, hs]

/-- Witness for C6's amended statement at the stopped action `c6Stopped`. -/
theorem C6_amended_witness :
    c6Stopped.tick_started.isSome = true ∧
    (c6Stopped.start 5).tick_started = c6Stopped.tick_started ∧
    stepOneAction 5 c6Stopped = c6Stopped :=
  ⟨rfl, (C6_amended_start_unguarded.1 c6Stopped 5).2 rfl,
    C6_amended_start_unguarded.2.2.2 5 c6Stopped (Or.inl rfl)⟩

end UABench

namespace UABench

/-- The event list after a world-loop iteration: each event advanced at
the pre-increment tick. -/
theorem worldStep_events (env : Nat → Nat → Nat) (s : SimState) :
    (worldStep env s).events = s.events.map (stepOneEvent s.tick) := rfl

/-- A completed event is left entirely unchanged by the event phase. -/
theorem stepOneEvent_of_completed (tick : Nat) (e : Event)
    (h : e.status = .completed) : stepOneEvent tick e = e := by
  have h1 : e.afterStartPhase tick = e := by
    unfold Event.afterStartPhase
    rw [if_neg]
    rintro ⟨h2, -⟩
    rw [h] at h2
    exact EventStatus.noConfusion h2
  unfold stepOneEvent
  rw [h1, if_neg]
  rw [h]
  exact fun h2 => EventStatus.noConfusion h2

/-- Once the tracked event list shows exactly one completed event, it
stays that way under further world-loop iterations. -/
theorem events_completed_stable (env : Nat → Nat → Nat) (s : SimState)
    (h : s.events.map Event.status = [.completed]) :
    (worldStep env s).events.map Event.status = [.completed] := by
  rw [worldStep_events]
  cases hs : s.events with
  | nil => rw [hs] at h; exact absurd h (by simp)
  | cons e rest =>
      rw [hs] at h
      simp only [List.map_cons, List.cons.injEq] at h
      obtain ⟨he, hrest⟩ := h
      have hrest' : rest = [] := List.map_eq_nil_iff.mp hrest
      subst hrest'
      simp [stepOneEvent_of_completed s.tick e he, he]

/-- C2 counterexample: for the spec's example event
(`tick_start = 5`, `tick_duration = 3`), the status observed after tick
7's step is already `Completed`, not `InProgress` as the claim asserts for
ticks 5 through 7 (and hence the first `Completed` observation is at tick
7, not 8). -/
theorem C2_counterexample :
    (c2after 7).events.map Event.status = [.completed] ∧
      EventStatus.completed ≠ EventStatus.inProgress := by
  constructor
  · decide
  · decide

/-- C2 amended: for an event with `tick_start = 5` and
`tick_duration = 3`, the status observed after each tick's step is
`NotStarted` at tick 4, `InProgress` at ticks 5 and 6, and `Completed` at
tick 7 and at every later tick. -/
theorem C2_amended_event_schedule :
    ((c2after 4).events.map Event.status = [.notStarted]) ∧
    ((c2after 5).events.map Event.status = [.inProgress]) ∧
    ((c2after 6).events.map Event.status = [.inProgress]) ∧
    (∀ n, 7 ≤ n → (c2after n).events.map Event.status = [.completed]) := by
  refine ⟨by decide, by decide, by decide, ?_⟩
  intro n hn
  induction n, hn using Nat.le_induction with
  | base => decide
  | succ n hn ih =>
      have hstep : c2after (n + 1) = worldStep env0 (c2after n) := by
        unfold c2after
        rw [Function.iterate_succ_apply']
      rw [hstep]
      exact events_completed_stable env0 (c2after n) ih

/-- Witness for C2's amended statement at tick 9. -/
theorem C2_amended_witness :
    (7 ≤ 9) ∧ (c2after 9).events.map Event.status = [.completed] :=
  ⟨by decide, C2_amended_event_schedule.2.2.2 9 (by decide)⟩

/-- C1: the engine starts a `NotStarted` objective unconditionally — at
the very first step, even though `current_tick = 0` is strictly below the
objective's `tick_start = 2`.  This contradicts the claim (and spec §4.2)
that the `NotStarted → InProgress` transition happens only once
`current_tick ≥ tick_start`; the `tick_start` field's own documentation
("tick at which the objective is scheduled to start") marks the code as
the slip. -/
theorem C1_objective_started_before_tick_start :
    c1s0.tick = 0 ∧
    (c1s0.objectives.map Objective.tick_start = [2]) ∧
    ((worldStep env0 c1s0).objectives.map Objective.status = [.inProgress]) ∧
    (0 : Nat) < 2 := by
  refine ⟨rfl, by decide, by decide, by decide⟩

end UABench

namespace UABench

/-- The per-action invariant is monotone in the tick bound. -/
theorem ActionInv.mono {t t' : Nat} (h : t ≤ t') {a : Action}
    (ha : ActionInv t a) : ActionInv t' a := by
  obtain ⟨h1, h2, h3, h4⟩ := ha
  refine ⟨h1, fun hs => ?_, h3, h4⟩
  obtain ⟨⟨st, hst, hle⟩, hc, hsp⟩ := h2 hs
  exact ⟨⟨st, hst, hle.trans h⟩, hc, hsp⟩

/-- A freshly instantiated action satisfies the invariant. -/
theorem instantiate_actionInv (tick : Nat) (spec : ActionSpec) :
    ActionInv tick spec.instantiate :=
  ⟨fun _ => ⟨rfl, rfl, rfl⟩,
   fun h => ActionStatus.noConfusion h,
   fun h => ActionStatus.noConfusion h,
   fun h => ActionStatus.noConfusion h⟩

/-- Stopping an `InProgress` action preserves the invariant. -/
theorem stop_actionInv (tick : Nat) (a : Action) (hs : a.status = .inProgress)
    (ha : ActionInv tick a) : ActionInv tick (a.stop tick) := by
  obtain ⟨-, h2, -, -⟩ := ha
  obtain ⟨-, hc, -⟩ := h2 hs
  exact ⟨fun h => ActionStatus.noConfusion h, fun h => ActionStatus.noConfusion h,
    fun _ => hc, fun h => ActionStatus.noConfusion h⟩

/-- The action phase of `Engine.step` preserves the invariant at the
stepping tick. -/
theorem stepOneAction_preserves_inv (tick : Nat) (a : Action)
    (ha : ActionInv tick a) : ActionInv tick (stepOneAction tick a) := by
  obtain ⟨h1, h2, h3, h4⟩ := ha
  cases hs : a.status with
  | notStarted =>
      obtain ⟨hst, hc, hsp⟩ := h1 hs
      have heq : stepOneAction tick a = a.start tick := by
        unfold stepOneAction; rw [hs]
      rw [heq]
      refine ⟨fun h => ActionStatus.noConfusion h, fun _ => ?_,
        fun h => ActionStatus.noConfusion h, fun h => ActionStatus.noConfusion h⟩
      exact ⟨⟨tick, by simp [Action.start, hst], Nat.le_refl tick⟩, hc, hsp⟩
  | inProgress =>
      obtain ⟨⟨st, hst, hle⟩, hc, hsp⟩ := h2 hs
      have heq : stepOneAction tick a =
          if a.has_elapsed_duration tick = true
          then Action.complete { a with stepCount := a.stepCount + 1 } tick
          else { a with stepCount := a.stepCount + 1 } := by
        unfold stepOneAction
        rw [hs]
        simp [Action.has_elapsed_duration]
      rw [heq]
      by_cases hd : a.has_elapsed_duration tick = true
      · rw [if_pos hd]
        have hreq : (a.ticks_required : Int) ≤ (tick : Int) - (st : Int) + 1 := by
          unfold Action.has_elapsed_duration at hd
          rw [hst] at hd
          exact of_decide_eq_true hd
        refine ⟨fun h => ActionStatus.noConfusion h, fun h => ActionStatus.noConfusion h,
          fun h => ActionStatus.noConfusion h, fun _ => ⟨hsp, st, tick, hst, rfl, hreq⟩⟩
      · rw [if_neg hd]
        refine ⟨fun h => by rw [show ({ a with stepCount := a.stepCount + 1 } :
            Action).status = a.status from rfl, hs] at h; exact ActionStatus.noConfusion h,
          fun _ => ⟨⟨st, hst, hle⟩, hc, hsp⟩, ?_, ?_⟩
        · intro h
          rw [show ({ a with stepCount := a.stepCount + 1 } : Action).status
              = a.status from rfl, hs] at h
          exact ActionStatus.noConfusion h
        · intro h
          rw [show ({ a with stepCount := a.stepCount + 1 } : Action).status
              = a.status from rfl, hs] at h
          exact ActionStatus.noConfusion h
  | stopped =>
      rw [stepOneAction_of_terminal tick a (Or.inl hs)]
      exact ⟨h1, h2, h3, h4⟩
  | completed =>
      rw [stepOneAction_of_terminal tick a (Or.inr hs)]
      exact ⟨h1, h2, h3, h4⟩

/-- A world-loop iteration preserves the invariant (at the incremented
tick). -/
theorem worldStep_preserves_inv (env : Nat → Nat → Nat) (s : SimState)
    (h : ∀ a ∈ s.actions, ActionInv s.tick a) :
    ∀ a ∈ (worldStep env s).actions, ActionInv (worldStep env s).tick a := by
  intro a ha
  have haw : (worldStep env s).actions = s.actions.map (stepOneAction s.tick) := rfl
  rw [haw] at ha
  rcases List.mem_map.mp ha with ⟨b, hb, hba⟩
  rw [show (worldStep env s).tick = s.tick + 1 from rfl, ← hba]
  exact ActionInv.mono (Nat.le_succ _) (stepOneAction_preserves_inv s.tick b (h b hb))

/-- Method `Engine.execute_action` never changes the current tick. -/
theorem execute_action_tick (spec : ActionSpec) (s : SimState) :
    (Engine.execute_action spec s).tick = s.tick := by
  by_cases hcs : (conflictSet spec.instantiate s.actions).isEmpty = true
  · rw [execute_action_no_conflict spec s (List.isEmpty_iff.mp hcs)]
  · have hne : (conflictSet spec.instantiate s.actions).isEmpty = false := by
      revert hcs; cases (conflictSet spec.instantiate s.actions).isEmpty <;> simp
    by_cases hp : spec.instantiate.priority ≤
        maxPriority (conflictSet spec.instantiate s.actions)
    · rw [execute_action_reject spec s hne hp]
    · rw [execute_action_preempt spec s hne (lt_of_not_le hp)]

/-- An admission request preserves the invariant at the current tick. -/
theorem execute_action_preserves_inv (spec : ActionSpec) (s : SimState)
    (h : ∀ a ∈ s.actions, ActionInv s.tick a) :
    ∀ a ∈ (Engine.execute_action spec s).actions, ActionInv s.tick a := by
  by_cases hcs : (conflictSet spec.instantiate s.actions).isEmpty = true
  · rw [execute_action_no_conflict spec s (List.isEmpty_iff.mp hcs)]
    intro a ha
    rcases List.mem_append.mp ha with h1 | h1
    · exact h a h1
    · rw [List.mem_singleton.mp h1]; exact instantiate_actionInv s.tick spec
  · have hne : (conflictSet spec.instantiate s.actions).isEmpty = false := by
      revert hcs; cases (conflictSet spec.instantiate s.actions).isEmpty <;> simp
    by_cases hp : spec.instantiate.priority ≤
        maxPriority (conflictSet spec.instantiate s.actions)
    · rw [execute_action_reject spec s hne hp]
      intro a ha
      exact h a ha
    · rw [execute_action_preempt spec s hne (lt_of_not_le hp)]
      intro a ha
      rcases List.mem_append.mp ha with h1 | h1
      · rcases List.mem_map.mp h1 with ⟨b, hb, hba⟩
        by_cases hcw : conflictsWith spec.instantiate b = true
        · rw [if_pos hcw] at hba
          rw [← hba]
          exact stop_actionInv s.tick b
            ((conflictsWith_iff spec.instantiate b).mp hcw).1 (h b hb)
        · rw [if_neg hcw] at hba
          rw [← hba]
          exact h b hb
      · rw [List.mem_singleton.mp h1]; exact instantiate_actionInv s.tick spec

/-- Every action tracked in a reachable state satisfies the invariant at
the current tick. -/
theorem reachable_actionInv (env : Nat → Nat → Nat) {s : SimState}
    (h : Reachable env s) : ∀ a ∈ s.actions, ActionInv s.tick a := by
  induction h with
  | init t0 domain events objectives =>
      intro a ha
      exact absurd ha (List.not_mem_nil a)
  | world hr ih => exact worldStep_preserves_inv env _ ih
  | exec spec hr ih =>
      intro a ha
      rw [execute_action_tick spec _]
      exact execute_action_preserves_inv spec _ ih a ha

end UABench

namespace UABench

/-- Position-wise view of the action phase of a world-loop iteration. -/
theorem worldStep_actions_getElem (env : Nat → Nat → Nat) (s : SimState)
    (i : Nat) :
    (worldStep env s).actions[i]? = (s.actions[i]?).map (stepOneAction s.tick) := by
  rw [show (worldStep env s).actions = s.actions.map (stepOneAction s.tick) from rfl,
    List.getElem?_map]

/-- A terminal (stopped or completed) action is untouched, at its list
position, by a world-loop iteration. -/
theorem terminal_fixed_world (env : Nat → Nat → Nat) (s : SimState)
    (i : Nat) (a : Action) (hia : s.actions[i]? = some a)
    (ht : a.status = .stopped ∨ a.status = .completed) :
    (worldStep env s).actions[i]? = some a := by
  rw [worldStep_actions_getElem, hia, Option.map_some',
    stepOneAction_of_terminal s.tick a ht]

/-- A terminal action is untouched, at its list position, by an admission
request. -/
theorem terminal_fixed_exec (spec : ActionSpec) (s : SimState)
    (i : Nat) (a : Action) (hia : s.actions[i]? = some a)
    (ht : a.status = .stopped ∨ a.status = .completed) :
    (Engine.execute_action spec s).actions[i]? = some a := by
  have hlen : i < s.actions.length := (List.getElem?_eq_some.mp hia).1
  have hcw : ¬ conflictsWith spec.instantiate a = true := by
    intro hc
    have := ((conflictsWith_iff spec.instantiate a).mp hc).1
    rcases ht with h | h <;> (rw [h] at this; exact ActionStatus.noConfusion this)
  by_cases hcs : (conflictSet spec.instantiate s.actions).isEmpty = true
  · rw [execute_action_no_conflict spec s (List.isEmpty_iff.mp hcs)]
    rw [show ({ s with
        actions := s.actions ++ [spec.instantiate]
        feedback := some
          { accepted := true
            reason := "accepted_no_conflict"
            tick := s.tick
            conflicts := []
            preempted := []
            started_action := some (buildActionSummary s.tick spec.instantiate) } }
        : SimState).actions = s.actions ++ [spec.instantiate] from rfl]
    rw [List.getElem?_append_left hlen, hia]
  · have hne : (conflictSet spec.instantiate s.actions).isEmpty = false := by
      revert hcs; cases (conflictSet spec.instantiate s.actions).isEmpty <;> simp
    by_cases hp : spec.instantiate.priority ≤
        maxPriority (conflictSet spec.instantiate s.actions)
    · rw [execute_action_reject spec s hne hp]
      exact hia
    · rw [execute_action_preempt spec s hne (lt_of_not_le hp)]
      have hlen' : i < (s.actions.map fun a =>
          if conflictsWith spec.instantiate a = true
          then a.stop s.tick else a).length := by
        rw [List.length_map]; exact hlen
      show ((s.actions.map fun a =>
          if conflictsWith spec.instantiate a = true
          then a.stop s.tick else a) ++ [spec.instantiate])[i]? = some a
      rw [List.getElem?_append_left hlen', List.getElem?_map, hia,
        Option.map_some', if_neg hcw]

/-- A terminal action stays untouched, at its list position, along every
continuation of the run. -/
theorem terminal_fixed_evolves (env : Nat → Nat → Nat) {s s' : SimState}
    (hev : Evolves env s s') (i : Nat) (a : Action)
    (hia : s.actions[i]? = some a)
    (ht : a.status = .stopped ∨ a.status = .completed) :
    s'.actions[i]? = some a := by
  induction hev with
  | refl => exact hia
  | world hev ih => exact terminal_fixed_world env _ i a ih ht
  | exec spec hev ih => exact terminal_fixed_exec spec _ i a ih ht

/-- C7: in every reachable state, at most one of `tick_stopped` and
`tick_completed` is set on every tracked action, and `Stopped` and
`Completed` are terminal: an action observed at some position with a
terminal status is bitwise unchanged at that position after any further
interleaving of world-loop iterations and admission requests (so it never
re-enters `InProgress` and never acquires the other terminal tick). -/
theorem C7_terminal_and_exclusive (env : Nat → Nat → Nat) {s : SimState}
    (h : Reachable env s) :
    (∀ a ∈ s.actions, a.tick_stopped = none ∨ a.tick_completed = none) ∧
    (∀ s', Evolves env s s' → ∀ (i : Nat) (a : Action),
      s.actions[i]? = some a →
      (a.status = .stopped ∨ a.status = .completed) →
      s'.actions[i]? = some a) := by
  constructor
  · intro a ha
    obtain ⟨h1, h2, h3, h4⟩ := reachable_actionInv env h a ha
    cases hst : a.status with
    | notStarted => exact Or.inl (h1 hst).2.2
    | inProgress => exact Or.inl (h2 hst).2.2
    | stopped => exact Or.inr (h3 hst)
    | completed => exact Or.inl (h4 hst).1
  · intro s' hev i a hia ht
    exact terminal_fixed_evolves env hev i a hia ht

/-- State `c7State` is reachable. -/
theorem c7State_reachable : Reachable env0 c7State :=
  Reachable.world (Reachable.world (Reachable.exec c7Spec
    (Reachable.init 0 0 [] [])))

/-- The completed action is tracked by `c7State`. -/
theorem c7Action_mem : c7Action ∈ c7State.actions := by
  rw [show c7State.actions = [c7Action] from rfl]
  exact List.mem_singleton.mpr rfl

/-- Witness for C7 at a reachable state holding one completed action. -/
theorem C7_witness :
    (c7Action.tick_stopped = none ∨ c7Action.tick_completed = none) ∧
    (worldStep env0 c7State).actions[0]? = some c7Action :=
  ⟨(C7_terminal_and_exclusive env0 c7State_reachable).1 c7Action c7Action_mem,
   (C7_terminal_and_exclusive env0 c7State_reachable).2 (worldStep env0 c7State)
     (Evolves.world Evolves.refl) 0 c7Action rfl (Or.inr rfl)⟩

/-- C8: in every reachable state, `tick_completed` is set exactly on
`Completed` actions, and a completed action's recorded interval satisfies
`tick_completed - tick_started + 1 ≥ ticks_required`. -/
theorem C8_completion_tick_consistent (env : Nat → Nat → Nat) {s : SimState}
    (h : Reachable env s) :
    ∀ a ∈ s.actions,
      (a.tick_completed.isSome = true ↔ a.status = .completed) ∧
      (∀ tc, a.tick_completed = some tc →
        ∃ st, a.tick_started = some st ∧
          (a.ticks_required : Int) ≤ (tc : Int) - (st : Int) + 1) := by
  intro a ha
  obtain ⟨h1, h2, h3, h4⟩ := reachable_actionInv env h a ha
  constructor
  · constructor
    · intro hsome
      cases hst : a.status with
      | notStarted => rw [(h1 hst).2.1] at hsome; exact absurd hsome (by simp)
      | inProgress => rw [(h2 hst).2.1] at hsome; exact absurd hsome (by simp)
      | stopped => rw [h3 hst] at hsome; exact absurd hsome (by simp)
      | completed => rfl
    · intro hc
      obtain ⟨-, st, tc, -, htc, -⟩ := h4 hc
      rw [htc]; rfl
  · intro tc htc
    cases hst : a.status with
    | notStarted => rw [(h1 hst).2.1] at htc; exact Option.noConfusion htc
    | inProgress => rw [(h2 hst).2.1] at htc; exact Option.noConfusion htc
    | stopped => rw [h3 hst] at htc; exact Option.noConfusion htc
    | completed =>
        obtain ⟨-, st, tc', hst', htc', hineq⟩ := h4 hst
        rw [htc] at htc'
        rw [← Option.some.inj htc'] at hineq
        exact ⟨st, hst', hineq⟩

/-- State `c8State` is reachable. -/
theorem c8State_reachable : Reachable env0 c8State :=
  Reachable.world (Reachable.world (Reachable.exec c8Spec
    (Reachable.init 0 0 [] [])))

/-- The completed action is tracked by `c8State`. -/
theorem c8Action_mem : c8Action ∈ c8State.actions := by
  rw [show c8State.actions = [c8Action] from rfl]
  exact List.mem_singleton.mpr rfl

/-- Witness for C8 at a reachable state holding one completed action. -/
theorem C8_witness :
    c8Action.tick_completed.isSome = true ↔ c8Action.status = .completed :=
  ((C8_completion_tick_consistent env0 c8State_reachable) c8Action c8Action_mem).1

end UABench

namespace UABench

/-- Unfolding of the action phase on an `InProgress` action. -/
theorem stepOneAction_inProgress_eq (tick : Nat) (a : Action)
    (h : a.status = .inProgress) :
    stepOneAction tick a =
      if a.has_elapsed_duration tick = true
      then Action.complete { a with stepCount := a.stepCount + 1 } tick
      else { a with stepCount := a.stepCount + 1 } := by
  unfold stepOneAction
  rw [h]
  simp [Action.has_elapsed_duration]

/-- C10: a fresh one-tick action that the engine starts at tick `T` does
not run its kind-specific `step` body on tick `T` (it is only started
there, `stepCount` stays 0); on tick `T + 1` the body runs exactly once
(`stepCount` becomes 1) and the action completes on that same tick, so
`tick_completed = tick_started + 1`; afterwards, its list entry never
changes again (in particular the body is never invoked again). -/
theorem C10_one_tick_action_completes_next_tick (env : Nat → Nat → Nat)
    (s : SimState) (i : Nat) (a : Action)
    (hia : s.actions[i]? = some a) (h1 : a.status = .notStarted)
    (h2 : a.ticks_required = 1) (h3 : a.tick_started = none)
    (h4 : a.stepCount = 0) :
    (((worldStep env s).actions[i]?).map
        (fun x => (x.status, x.stepCount, x.tick_started))
      = some (ActionStatus.inProgress, 0, some s.tick)) ∧
    ((((worldStep env (worldStep env s)).actions[i]?).map
        (fun x => (x.status, x.stepCount, x.tick_started, x.tick_completed)))
      = some (ActionStatus.completed, 1, some s.tick, some (s.tick + 1))) ∧
    (∀ s', Evolves env (worldStep env (worldStep env s)) s' →
      s'.actions[i]? = (worldStep env (worldStep env s)).actions[i]?) := by
  have ha1 : stepOneAction s.tick a = a.start s.tick := by
    unfold stepOneAction; rw [h1]
  have e1 : (worldStep env s).actions[i]? = some (a.start s.tick) := by
    rw [worldStep_actions_getElem, hia, Option.map_some', ha1]
  have hd : (a.start s.tick).has_elapsed_duration (s.tick + 1) = true := by
    unfold Action.has_elapsed_duration Action.start
    simp [h3, h2]
  have ha2 : stepOneAction (s.tick + 1) (a.start s.tick)
      = Action.complete
          { a.start s.tick with stepCount := (a.start s.tick).stepCount + 1 }
          (s.tick + 1) := by
    rw [stepOneAction_inProgress_eq _ _ rfl, if_pos hd]
  have e2 : (worldStep env (worldStep env s)).actions[i]?
      = some (Action.complete
          { a.start s.tick with stepCount := (a.start s.tick).stepCount + 1 }
          (s.tick + 1)) := by
    rw [worldStep_actions_getElem, e1, Option.map_some',
      show (worldStep env s).tick = s.tick + 1 from rfl, ha2]
  refine ⟨?_, ?_, ?_⟩
  · rw [e1, Option.map_some']
    simp [Action.start, h3, h4]
  · rw [e2, Option.map_some']
    simp [Action.complete, Action.start, h3, h4]
  · intro s' hev
    rw [e2]
    exact terminal_fixed_evolves env hev i _ e2 (Or.inr rfl)

/-- Witness for C10 at a fresh one-tick action tracked from tick 0. -/
theorem C10_witness :
    c10State.actions[0]? = some c10Action ∧
    ((((worldStep env0 (worldStep env0 c10State)).actions[0]?).map
        (fun x => (x.status, x.stepCount, x.tick_started, x.tick_completed)))
      = some (ActionStatus.completed, 1, some 0, some 1)) :=
  ⟨rfl, (C10_one_tick_action_completes_next_tick env0 c10State 0 c10Action
      rfl rfl rfl rfl rfl).2.1⟩

end UABench

namespace UABench

/-- The lock bookkeeping invariant holds in every reachable joint state
of the two-loop runner. -/
theorem runnerReachable_inv (env : Nat → Nat → Nat) (maxTicks : Option Nat)
    (s0 : SimState) {r : RunnerState}
    (h : RunnerReachable env maxTicks s0 r) : RunnerInv r := by
  induction h with
  | init => exact ⟨by simp [RunnerInit], by simp [RunnerInit]⟩
  | more hr hstep ih =>
      rename_i rr rtgt
      obtain ⟨i1, i2⟩ := ih
      cases hstep with
      | simAcquire hfree hacq =>
          have hA : rr.agentPhase = .acquiring := by
            by_contra hne
            have hl := i2.mpr hne
            rw [hfree] at hl
            exact LockOwner.noConfusion hl
          exact ⟨by simp, by simp [hA]⟩
      | simBreak hhold hcond =>
          have hlock : rr.lock = .simLoop := i1.mpr (by rw [hhold]; simp)
          exact ⟨by simp [hlock], i2⟩
      | simIterate hhold hcond =>
          have hlock : rr.lock = .simLoop := i1.mpr (by rw [hhold]; simp)
          have hA : rr.agentPhase = .acquiring := by
            by_contra hne
            have hl := i2.mpr hne
            rw [hl] at hlock
            exact LockOwner.noConfusion hlock
          exact ⟨by simp, by simp [hA]⟩
      | agentAcquire hfree hacq =>
          have hS : rr.simPhase = .acquiring := by
            by_contra hne
            have hl := i1.mpr hne
            rw [hfree] at hl
            exact LockOwner.noConfusion hl
          exact ⟨by simp [hS], by simp⟩
      | agentBreak hhold hcond =>
          have hlock : rr.lock = .agentLoop := i2.mpr (by rw [hhold]; simp)
          exact ⟨i1, by simp [hlock]⟩
      | agentIdle hhold hcond =>
          have hlock : rr.lock = .agentLoop := i2.mpr (by rw [hhold]; simp)
          have hS : rr.simPhase = .acquiring := by
            by_contra hne
            have hl := i1.mpr hne
            rw [hl] at hlock
            exact LockOwner.noConfusion hlock
          exact ⟨by simp [hS], by simp⟩
      | agentRequest spec hhold hcond =>
          have hlock : rr.lock = .agentLoop := i2.mpr (by rw [hhold]; simp)
          have hS : rr.simPhase = .acquiring := by
            by_contra hne
            have hl := i1.mpr hne
            rw [hl] at hlock
            exact LockOwner.noConfusion hlock
          exact ⟨by simp [hS], by simp⟩

/-- C9 (refuting the termination guarantee): because each loop of
`ScenarioRunner.run` breaks out of its `while` with the lock still held,
no joint state reachable from a fresh start — for any `max_ticks` — has
both loops exited.  Whichever loop observes the stop condition first
keeps the lock forever, the other thread blocks in `lock.acquire()`, and
`run()` can never return from joining both threads. -/
theorem C9_no_joint_termination (env : Nat → Nat → Nat)
    (maxTicks : Option Nat) (s0 : SimState) {r : RunnerState}
    (h : RunnerReachable env maxTicks s0 r) :
    ¬ (r.simPhase = .exited ∧ r.agentPhase = .exited) := by
  obtain ⟨i1, i2⟩ := runnerReachable_inv env maxTicks s0 h
  rintro ⟨hs, ha⟩
  have h1 : r.lock = .simLoop := i1.mpr (by rw [hs]; simp)
  have h2 : r.lock = .agentLoop := i2.mpr (by rw [ha]; simp)
  rw [h1] at h2
  exact LockOwner.noConfusion h2

/-- Witness for C9: with `max_ticks = 0` the world loop acquires the
lock, sees a false running condition and breaks while holding it,
reaching the stuck state `c9Stuck` — at which the theorem applies. -/
theorem C9_witness :
    ¬ (c9Stuck.simPhase = .exited ∧ c9Stuck.agentPhase = .exited) :=
  C9_no_joint_termination env0 (some 0) c9s0
    (RunnerReachable.more
      (RunnerReachable.more RunnerReachable.init
        (RunnerStep.simAcquire rfl rfl))
      (RunnerStep.simBreak rfl rfl))

end UABench
